import Mathlib

/-! Shallow embedding of the incremental structure-from-motion pipeline in
`3dReconstruction.ipynb`.

Conventions used throughout:
* 2D image points are pairs and 3D points are triples; exact arithmetic is over `ℚ`
  or `Int` (the numpy code computes in floating point, but none of the properties
  verified here depends on rounding), while quantities that involve square roots
  live in `ℝ`.
* Calls into OpenCV (`cv.imread`, SIFT/FLANN, `cv.findEssentialMat`,
  `cv.recoverPose`, `cv.triangulatePoints`, `cv.solvePnPRansac`, `cv.Rodrigues`,
  `cv.projectPoints`) are external collaborators; their outputs enter the embedded
  functions as explicit arguments, and only the repository's own logic around them
  is embedded. -/

/-- Color-channel conversion in `to_ply`:
`out_colors = (colors.reshape(-1, 3) * 255).astype(np.uint8)`.
A channel value `c` (an integer pixel sample) is multiplied by 255 and cast to an
unsigned byte, i.e. reduced modulo 256. -/
def exportColorByte (c : Nat) : Nat := (c * 255) % 256

/-- Per-column normalisation in `triangulation`: the returned cloud is
`pt_cloud / pt_cloud[3]`, which divides every homogeneous 4-vector (a column of
`pt_cloud`) componentwise by its own 4th coordinate.  `cv.triangulatePoints` is an
external OpenCV call; its output columns are the argument of
`triangulation_normalize`.  Rational division by zero is total in Lean
(`x / 0 = 0`), standing in for the IEEE `NaN`/`Inf` the numpy expression produces
there; in both semantics the column is kept, never dropped. -/
def normalizeHomog (p : ℚ × ℚ × ℚ × ℚ) : ℚ × ℚ × ℚ × ℚ :=
  (p.1 / p.2.2.2, p.2.1 / p.2.2.2, p.2.2.1 / p.2.2.2, p.2.2.2 / p.2.2.2)

/-- The `(pt_cloud / pt_cloud[3])` step of `triangulation`, column by column. -/
def triangulation_normalize (cloud : List (ℚ × ℚ × ℚ × ℚ)) : List (ℚ × ℚ × ℚ × ℚ) :=
  cloud.map normalizeHomog

/-- Row selection `arr[idx]` by an integer index list (numpy fancy indexing, used
both for `inlier[:, 0]` pruning in `PnP` and for `verts[indx]` in `to_ply`). -/
def selectRows {β : Type} (l : List β) (idx : List Nat) : List β :=
  idx.filterMap (fun k => l.get? k)

/-- Return tuple of `PnP`: rotation matrix, translation vector and the three
pruned parallel arrays. -/
structure PnPResult (R T γ : Type) where
  rot_matrix : R
  tran_vector : T
  image_point : List (ℚ × ℚ)
  obj_point : List (ℚ × ℚ × ℚ)
  rot_vector : List γ

/-- Embedding of `PnP`.  `cv.solvePnPRansac` and `cv.Rodrigues` are external OpenCV
calls; their outputs — the rotation matrix after Rodrigues, the translation vector,
and the optional inlier index column `inlier[:, 0]` — are passed in as arguments
(`K` and the distortion argument only feed that external call).  The body mirrors
the source exactly: `if inlier is not None` the three arrays `image_point`,
`obj_point`, `rot_vector` are fancy-indexed by the inlier indices, otherwise they
are returned unfiltered; in every case the tuple is returned and no error of any
kind is raised. -/
def PnP {R T γ : Type} (obj_point : List (ℚ × ℚ × ℚ)) (image_point : List (ℚ × ℚ))
    (rot_vector : List γ) (rot_matrix : R) (tran_vector : T)
    (inlier : Option (List Nat)) : PnPResult R T γ :=
  match inlier with
  | none => ⟨rot_matrix, tran_vector, image_point, obj_point, rot_vector⟩
  | some idx =>
      ⟨rot_matrix, tran_vector, selectRows image_point idx, selectRows obj_point idx,
        selectRows rot_vector idx⟩

/-- Message printed by `get_matches` when either image fails to decode:
`print(f"Error reading images")` — the f-string interpolates nothing, so the
message is a constant that names neither path. -/
def readErrorMessage : String := "Error reading images"

/-- Image-loading stage of `get_matches`: both paths go through the external
decoder (`cv.imread`, modelled by `decode`); if either result is `None` the fixed
message is printed and the function returns `None` instead of the 4-tuple of
matches, so the caller's tuple unpacking fails and the pipeline stops.  The result
pair is (the two decoded images if both succeeded, the printed error message if
any). -/
def get_matches_load {α : Type} (decode : String → Option α) (path1 path2 : String) :
    Option (α × α) × Option String :=
  match decode path1, decode path2 with
  | some img1, some img2 => (some (img1, img2), none)
  | _, _ => (none, some readErrorMessage)

/-- Accumulator state of the main loop: `pose_array`, `total_points`,
`total_colors`. -/
structure LoopState where
  pose_array : List ℚ
  total_points : List (ℚ × ℚ × ℚ)
  total_colors : List (ℚ × ℚ × ℚ)

/-- Data one loop iteration appends: `pose_2.ravel()`, the newly triangulated
`points_3d[:, 0, :]` rows and the sampled `color_vector` rows.  All per-iteration
geometry (matching, tracking, PnP, triangulation) only determines this data; the
accumulator updates themselves are the three `np.hstack`/`np.vstack` appends. -/
structure StepData where
  pose_2 : List ℚ
  new_points : List (ℚ × ℚ × ℚ)
  new_colors : List (ℚ × ℚ × ℚ)

/-- One iteration's accumulator updates in the main loop:
`pose_array = np.hstack((pose_array, pose_2.ravel()))`,
`total_points = np.vstack((total_points, points_3d[:, 0, :]))`,
`total_colors = np.vstack((total_colors, color_vector))`. -/
def loopStep (s : LoopState) (d : StepData) : LoopState :=
  ⟨s.pose_array ++ d.pose_2, s.total_points ++ d.new_points,
   s.total_colors ++ d.new_colors⟩

/-- The main loop over the image sequence, restricted to its accumulator effect. -/
def runLoop (s0 : LoopState) (steps : List StepData) : LoopState :=
  steps.foldl loopStep s0

/-- 2D point with integer coordinates (SIFT keypoint coordinates are floats in the
source; only exact equality of coordinates matters to `common_points`, so an exact
coordinate type is used). -/
abbrev Pt2 := Int × Int

/-- Row-match test performed by `np.where(image_points_2 == image_points_1[i, :])`
in `common_points`: the numpy `==` broadcasts elementwise over the rows of
`image_points_2`, so row `q` produces a hit whenever either component of `q`
equals the corresponding component of `p` — not only when the whole points are
equal. -/
def rowMatches (q p : Pt2) : Bool := q.1 == p.1 || q.2 == p.2

/-- First row index of `pts2` with a broadcast hit against `p`: `a[0][0]` in the
source, where `a[0]` lists (in increasing order) the row indices of all `True`
entries of the broadcast comparison. -/
def firstMatchIdx (pts2 : List Pt2) (p : Pt2) : Option Nat :=
  match pts2 with
  | [] => none
  | q :: rest =>
    if rowMatches q p then some 0 else (firstMatchIdx rest p).map (· + 1)

/-- Index-pair collection loop of `common_points`: for `i` in range, if the
broadcast comparison against `image_points_1[i]` has any hit, append `i` to
`cm_points_1` and the first hit row to `cm_points_2`.  The pairs are built here in
lockstep and projected to the two lists afterwards. -/
def cmPairs (pts2 : List Pt2) : List Pt2 → Nat → List (Nat × Nat)
  | [], _ => []
  | p :: rest, i =>
    match firstMatchIdx pts2 p with
    | some j => (i, j) :: cmPairs pts2 rest (i + 1)
    | none => cmPairs pts2 rest (i + 1)

/-- Masked-row removal in `common_points`: `np.ma.array(arr, mask=False)` with the
rows listed in `idx` masked, then `compressed()` and the reshape back to pairs —
i.e. the rows whose index lies in `idx` are removed and the remaining rows keep
their order. -/
def removeRows (l : List Pt2) (idx : List Nat) : List Pt2 :=
  (l.enum.filter (fun ki => !(idx.contains ki.1))).map (·.2)

/-- Embedding of `common_points image_points_1 image_points_2 image_points_3`:
returns `cm_points_1`, `cm_points_2`, `mask_array_1` (rows of the second array not
hit) and `mask_array_2` (rows of the third array whose index is in
`cm_points_2`, removed). -/
def common_points (pts1 pts2 pts3 : List Pt2) :
    List Nat × List Nat × List Pt2 × List Pt2 :=
  let pairs := cmPairs pts2 pts1 0
  (pairs.map (·.1), pairs.map (·.2),
   removeRows pts2 (pairs.map (·.2)), removeRows pts3 (pairs.map (·.2)))

/-- Exact-equality variant of the row match, as the specification words it: the
"to" coordinate of the first set equals the "from" coordinate of the second set. -/
def rowEqual (q p : Pt2) : Bool := q == p

/-- 3×3 matrix over a coordinate field. -/
abbrev Mat3 (α : Type) := Matrix (Fin 3) (Fin 3) α

/-- 3×4 matrix over a coordinate field. -/
abbrev Mat34 (α : Type) := Matrix (Fin 3) (Fin 4) α

/-- Length-3 column vector over a coordinate field. -/
abbrev Vec3 (α : Type) := Fin 3 → α

/-- `transform_matrix_0 = np.array([[1, 0, 0, 0], [0, 1, 0, 0], [0, 0, 1, 0]])`. -/
def transform_matrix_0 : Mat34 ℚ := fun i j => if (i : ℕ) = (j : ℕ) then 1 else 0

/-- Rotation block `T[:3, :3]` of a 3×4 transform. -/
def rotOf {α : Type} (T : Mat34 α) : Mat3 α := fun i j => T i (Fin.castLE (by omega) j)

/-- Translation column `T[:3, 3]` of a 3×4 transform. -/
def tranOf {α : Type} (T : Mat34 α) : Vec3 α := fun i => T i 3

/-- Reassembly of a 3×4 transform from its blocks, as done by the two slice
assignments `transform_matrix_1[:3, :3] = ...` and
`transform_matrix_1[:3, 3] = ...` (and by `np.hstack((rot_matrix, tran_matrix))`
in the main loop). -/
def transformOfRt {α : Type} (R : Mat3 α) (t : Vec3 α) : Mat34 α := fun i j =>
  if h : (j : ℕ) < 3 then R i ⟨j, h⟩ else t i

/-- Boolean-mask row selection `arr[mask == 1]` (and `arr[mask > 0]`): keeps the
rows at positions where the mask is set, in order. -/
def maskFilter {β : Type} (mask : List Bool) (l : List β) : List β :=
  ((mask.zip l).filter (·.1)).map (·.2)

/-- Output of the two-view initialisation cell. -/
structure TwoViewInit where
  transform_matrix_1 : Mat34 ℚ
  pose_1 : Mat34 ℚ
  feature_0 : List (ℚ × ℚ)
  feature_1 : List (ℚ × ℚ)
  color_a : List (ℚ × ℚ × ℚ)
  color_b : List (ℚ × ℚ × ℚ)

/-- Two-view initialisation cell.  `cv.findEssentialMat` and `cv.recoverPose` are
external; their outputs — the essential-matrix inlier mask `emMask`, the
pose-recovery mask `rpMask` and the recovered `rot_matrix` / `tran_matrix` — are
arguments.  The body mirrors the cell: the four parallel arrays are filtered by
`em_mask.ravel() == 1`, then by the recover-pose mask `> 0`, and
`transform_matrix_1[:3, :3] = np.matmul(rot_matrix, transform_matrix_0[:3, :3])`,
`transform_matrix_1[:3, 3] = transform_matrix_0[:3, 3] +
np.matmul(transform_matrix_0[:3, :3], tran_matrix.ravel())`,
`pose_1 = np.matmul(K, transform_matrix_1)`. -/
def twoViewInit (K : Mat3 ℚ) (rot_matrix : Mat3 ℚ) (tran_matrix : Vec3 ℚ)
    (emMask rpMask : List Bool) (f0 f1 : List (ℚ × ℚ))
    (ca cb : List (ℚ × ℚ × ℚ)) : TwoViewInit :=
  let f0a := maskFilter emMask f0
  let f1a := maskFilter emMask f1
  let caa := maskFilter emMask ca
  let cba := maskFilter emMask cb
  let f0b := maskFilter rpMask f0a
  let f1b := maskFilter rpMask f1a
  let cab := maskFilter rpMask caa
  let cbb := maskFilter rpMask cba
  let T1 := transformOfRt (rot_matrix * rotOf transform_matrix_0)
      (tranOf transform_matrix_0 + (rotOf transform_matrix_0).mulVec tran_matrix)
  ⟨T1, K * T1, f0b, f1b, cab, cbb⟩

/-- Pinhole projection performed by `cv.projectPoints` with zero distortion: the
3D point goes through the extrinsics `[R|t]`, then through `K`, and is
dehomogenised.  `reprojection_error` converts `rot_matrix` to a rotation vector
with `cv.Rodrigues` and `cv.projectPoints` converts it back; that round trip is
the identity on rotations, so the projection is applied with the rotation matrix
directly. -/
noncomputable def projectPoint (K : Mat3 ℝ) (R : Mat3 ℝ) (t : Vec3 ℝ)
    (X : Vec3 ℝ) : ℝ × ℝ :=
  let Xc := R.mulVec X + t
  let u := K.mulVec Xc
  (u 0 / u 2, u 1 / u 2)

/-- Semantics of `cv.norm(a, b, cv.NORM_L2)` on two equally shaped point arrays:
the global L2 (Frobenius) norm of the elementwise difference, i.e. the square root
of the sum, over all points and both coordinates, of the squared differences. -/
noncomputable def cvNormL2 (a b : List (ℝ × ℝ)) : ℝ :=
  Real.sqrt (((a.zip b).map
    (fun pq => (pq.1.1 - pq.2.1) ^ 2 + (pq.1.2 - pq.2.2) ^ 2)).sum)

/-- Per-point Euclidean (L2) distance between a projected point and its observed
point — the quantity whose mean the specification describes. -/
noncomputable def euclidDist (p q : ℝ × ℝ) : ℝ :=
  Real.sqrt ((p.1 - q.1) ^ 2 + (p.2 - q.2) ^ 2)

/-- Embedding of `reprojection_error` on its `homogenity = 0` path (the
`homogenity = 1` path only converts the points from homogeneous coordinates first,
via the external `cv.convertPointsFromHomogeneous`): project every object point,
then return `cv.norm(image_points_calc, image_points, cv.NORM_L2) /
len(image_points_calc)`. -/
noncomputable def reprojection_error (obj_points : List (Vec3 ℝ))
    (image_points : List (ℝ × ℝ)) (transform_matrix : Mat34 ℝ)
    (K : Mat3 ℝ) : ℝ :=
  let image_points_calc := obj_points.map
    (projectPoint K (rotOf transform_matrix) (tranOf transform_matrix))
  cvNormL2 image_points_calc image_points / image_points_calc.length

/-- Scaling step of `to_ply`: `out_points = point_cloud.reshape(-1, 3) * 200`. -/
def scalePoint (p : ℝ × ℝ × ℝ) : ℝ × ℝ × ℝ := (p.1 * 200, p.2.1 * 200, p.2.2 * 200)

/-- Colour-triple conversion of `to_ply`, one row of
`(colors.reshape(-1, 3) * 255).astype(np.uint8)`. -/
def exportColorTriple (c : Nat × Nat × Nat) : Nat × Nat × Nat :=
  (exportColorByte c.1, exportColorByte c.2.1, exportColorByte c.2.2)

/-- Componentwise mean `np.mean(verts[:, :3], axis=0)`. -/
noncomputable def centroid (pts : List (ℝ × ℝ × ℝ)) : ℝ × ℝ × ℝ :=
  ((pts.map (·.1)).sum / pts.length, (pts.map (·.2.1)).sum / pts.length,
   (pts.map (·.2.2)).sum / pts.length)

/-- Distance of one (scaled) point from the centroid, as computed by
`scaled_verts = verts[:, :3] - mean` followed by
`dist = np.sqrt(sx ** 2 + sy ** 2 + sz ** 2)`. -/
noncomputable def distFrom (c p : ℝ × ℝ × ℝ) : ℝ :=
  Real.sqrt ((p.1 - c.1) ^ 2 + (p.2.1 - c.2.1) ^ 2 + (p.2.2 - c.2.2) ^ 2)

/-- The index list `np.where(dist < bound)[0]`. -/
noncomputable def whereLT (dist : List ℝ) (bound : ℝ) : List Nat :=
  (List.range dist.length).filter (fun k => decide (dist.getD k 0 < bound))

/-- One output vertex of `to_ply`: scaled point and byte colour triple. -/
abbrev PlyVert := (ℝ × ℝ × ℝ) × (Nat × Nat × Nat)

/-- Vertex pipeline of `to_ply`: scale the points by 200, convert the colours to
bytes, stack them into `verts`, centre the coordinates on their mean, compute the
per-row Euclidean distance from the centroid, and keep exactly the rows with
`dist < np.mean(dist) + 300` (via `indx = np.where(...)`; `verts = verts[indx]`). -/
noncomputable def to_ply_verts (point_cloud : List (ℝ × ℝ × ℝ))
    (colors : List (Nat × Nat × Nat)) : List PlyVert :=
  let out_points := point_cloud.map scalePoint
  let out_colors := colors.map exportColorTriple
  let verts := out_points.zip out_colors
  let vpts := verts.map (·.1)
  let c := centroid vpts
  let dist := vpts.map (distFrom c)
  selectRows verts (whereLT dist (dist.sum / dist.length + 300))

/-- The written PLY artifact, restricted to what the file-integrity claim needs:
the vertex count declared in the header (`ply_header % dict(vert_num=len(verts))`)
and the data lines written after it (`np.savetxt(f, verts, '%f %f %f %d %d %d')`,
one line per retained vertex; the float formatting itself is external and is
supplied as `fmt`). -/
structure PlyFile where
  header_vert_num : Nat
  data_lines : List String

/-- File-writing step of `to_ply`: header with `vert_num = len(verts)`, then one
formatted line per retained vertex. -/
noncomputable def to_ply_file (fmt : PlyVert → String)
    (point_cloud : List (ℝ × ℝ × ℝ)) (colors : List (Nat × Nat × Nat)) : PlyFile :=
  let verts := to_ply_verts point_cloud colors
  ⟨verts.length, verts.map fmt⟩

/-- Constructor for a length-3 real vector, used to state concrete test inputs. -/
def vec3R (a b c : ℝ) : Vec3 ℝ := fun i => if i = 0 then a else if i = 1 then b else c

/-- The stacked vertex rows `verts = np.hstack([out_points, out_colors])` of
`to_ply`, before the distance filter. -/
def plyStackedVerts (point_cloud : List (ℝ × ℝ × ℝ))
    (colors : List (Nat × Nat × Nat)) : List PlyVert :=
  (point_cloud.map scalePoint).zip (colors.map exportColorTriple)

/-- The distance threshold `np.mean(dist) + 300` of `to_ply`, computed from the
stacked vertex rows exactly as in the source: the mean of the per-row distances
from the centroid, plus the fixed offset 300. -/
noncomputable def plyDistThreshold (verts : List PlyVert) : ℝ :=
  ((verts.map (·.1)).map (distFrom (centroid (verts.map (·.1))))).sum /
    ((verts.map (·.1)).map (distFrom (centroid (verts.map (·.1))))).length + 300

/-- Concrete export-filter test cloud: two points at the origin and one at
`(27/4, 0, 0)` — scaled by 200 it becomes `(1350, 0, 0)`, whose distance from the
centroid `(450, 0, 0)` is 900, exactly the mean distance `600` plus the offset
`300`. -/
noncomputable def cexPC : List (ℝ × ℝ × ℝ) := [(0, 0, 0), (0, 0, 0), (27 / 4, 0, 0)]

/-- Colours for the export-filter test cloud. -/
def cexCols : List (Nat × Nat × Nat) := [(1, 1, 1), (1, 1, 1), (1, 1, 1)]

/-! Helper lemmas shared by several claim proofs. -/

/-- Fancy indexing by in-range indices returns exactly one row per index. -/
theorem selectRows_length {β : Type} (l : List β) (idx : List Nat)
    (h : ∀ j ∈ idx, j < l.length) : (selectRows l idx).length = idx.length := by
  induction idx with
  | nil => rfl
  | cons j rest ih =>
    have hj : j < l.length := h j (List.mem_cons_self j rest)
    have hg : l.get? j = some (l.get ⟨j, hj⟩) := List.get?_eq_get hj
    have hrest := ih (fun k hk => h k (List.mem_cons_of_mem j hk))
    unfold selectRows at hrest ⊢
    rw [List.filterMap_cons_some hg, List.length_cons, hrest, List.length_cons]

/-- Filtering two equally long lists by the same boolean mask yields equally long
results. -/
theorem maskFilter_length_eq {β γ : Type} (mask : List Bool) (l₁ : List β)
    (l₂ : List γ) (h : l₁.length = l₂.length) :
    (maskFilter mask l₁).length = (maskFilter mask l₂).length := by
  induction mask generalizing l₁ l₂ with
  | nil => simp [maskFilter]
  | cons b rest ih =>
    cases l₁ with
    | nil => cases l₂ with
      | nil => simp [maskFilter]
      | cons y ys => simp at h
    | cons x xs => cases l₂ with
      | nil => simp at h
      | cons y ys =>
        simp only [List.length_cons, Nat.succ_inj] at h
        have := ih xs ys h
        simp only [maskFilter, List.zip_cons_cons, List.filter_cons] at this ⊢
        cases b <;> simp_all [maskFilter]

/-- C10: for every accumulated colour channel value `c` (an 8-bit sample,
`0 ≤ c ≤ 255`), the byte the exporter writes is `(255 * c) % 256`, which equals
`256 - c` for `c > 0` and `0` for `c = 0`; the mapping is not the identity (e.g.
at `c = 1`), so the exported colours are not the sampled pixel values. -/
theorem c10_export_color_mod (c : Nat) (h : c ≤ 255) :
    exportColorByte c = (255 * c) % 256 ∧
    exportColorByte c = (if c = 0 then 0 else 256 - c) ∧
    exportColorByte 1 ≠ 1 := by
  unfold exportColorByte
  refine ⟨by ring_nf, ?_, by decide⟩
  split <;> omega

/-- C10 witness: evaluation at the concrete channel value 7. -/
theorem c10_export_color_mod_witness :
    exportColorByte 7 = (255 * 7) % 256 ∧
    exportColorByte 7 = (if 7 = 0 then 0 else 256 - 7) ∧
    exportColorByte 1 ≠ 1 :=
  c10_export_color_mod 7 (by decide)

/-- C8: for every point cloud and colour array written by the exporter (and any
external float formatting), the vertex count declared in the PLY header equals the
number of data lines written after the header. -/
theorem c8_ply_vertex_count (fmt : PlyVert → String)
    (point_cloud : List (ℝ × ℝ × ℝ)) (colors : List (Nat × Nat × Nat)) :
    (to_ply_file fmt point_cloud colors).header_vert_num =
      (to_ply_file fmt point_cloud colors).data_lines.length := by
  simp [to_ply_file]

/-- C9: the accumulators of the control loop only grow: the state after `n + 1`
processed frame-pairs extends the state after `n` pairs (each array is the earlier
array with that iteration's rows appended), so the accumulated point count and the
pose-history length never decrease and no point or pose is ever removed or rolled
back before export. -/
theorem c9_monotonic_growth (s0 : LoopState) (steps : List StepData) (n : Nat) :
    (∃ dp dt dc,
      runLoop s0 (steps.take (n + 1)) =
        ⟨(runLoop s0 (steps.take n)).pose_array ++ dp,
         (runLoop s0 (steps.take n)).total_points ++ dt,
         (runLoop s0 (steps.take n)).total_colors ++ dc⟩) ∧
    (runLoop s0 (steps.take n)).total_points.length ≤
      (runLoop s0 (steps.take (n + 1))).total_points.length ∧
    (runLoop s0 (steps.take n)).pose_array.length ≤
      (runLoop s0 (steps.take (n + 1))).pose_array.length := by
  have hsplit : runLoop s0 (steps.take (n + 1)) =
      runLoop (runLoop s0 (steps.take n)) (steps[n]?.toList) := by
    rw [List.take_succ, runLoop, List.foldl_append]; rfl
  have hrepr : ∃ dp dt dc,
      runLoop s0 (steps.take (n + 1)) =
        ⟨(runLoop s0 (steps.take n)).pose_array ++ dp,
         (runLoop s0 (steps.take n)).total_points ++ dt,
         (runLoop s0 (steps.take n)).total_colors ++ dc⟩ := by
    cases hd : steps[n]? with
    | none =>
      refine ⟨[], [], [], ?_⟩
      rw [hsplit, hd]
      simp [runLoop]
    | some d =>
      refine ⟨d.pose_2, d.new_points, d.new_colors, ?_⟩
      rw [hsplit, hd]
      rfl
  obtain ⟨dp, dt, dc, he⟩ := hrepr
  exact ⟨⟨dp, dt, dc, he⟩, by rw [he]; simp, by rw [he]; simp⟩

/-- C2 counterexample: the homogeneous solution `(1, 2, 3, 0)` has 4th coordinate
exactly zero, yet the triangulator keeps the corresponding output point — the
output has the same length as the input, nothing is detected or dropped (in
floating point the kept coordinates are `NaN`/`Inf`; Lean's total division stands
in for them). -/
theorem c2_counterexample :
    ((1, 2, 3, 0) : ℚ × ℚ × ℚ × ℚ).2.2.2 = 0 ∧
    (triangulation_normalize [(1, 2, 3, 0)]).length = 1 :=
  ⟨rfl, rfl⟩

/-- C2 amended: the triangulator applies no degeneracy check: it normalises every
column of the homogeneous solution by its 4th coordinate and returns exactly one
output point per input correspondence, never dropping any.  Columns with nonzero
4th coordinate become the properly dehomogenised `(x/w, y/w, z/w, 1)`; columns
with zero 4th coordinate are normalised by zero (producing `NaN`/`Inf` in the
floating-point original) and are still kept. -/
theorem c2_no_degenerate_drop (cloud : List (ℚ × ℚ × ℚ × ℚ)) (x y z w : ℚ)
    (hw : w ≠ 0) :
    (triangulation_normalize cloud).length = cloud.length ∧
    normalizeHomog (x, y, z, w) = (x / w, y / w, z / w, 1) := by
  refine ⟨by simp [triangulation_normalize], ?_⟩
  simp [normalizeHomog, div_self hw]

/-- C2 witness: the amended statement applied at a concrete cloud and a concrete
nondegenerate column. -/
theorem c2_no_degenerate_drop_witness :
    (triangulation_normalize [((1 : ℚ), (2 : ℚ), (3 : ℚ), (0 : ℚ))]).length =
      ([((1 : ℚ), (2 : ℚ), (3 : ℚ), (0 : ℚ))] : List (ℚ × ℚ × ℚ × ℚ)).length ∧
    normalizeHomog (1, 2, 3, 4) = (1 / 4, 2 / 4, 3 / 4, 1) :=
  c2_no_degenerate_drop [(1, 2, 3, 0)] 1 2 3 4 (by decide)

/-- C3 counterexample: with zero surviving inliers (the external solver reports an
empty inlier set — fewer than the minimal required 4), `PnP` does not fail: it
returns the solver's pose unchanged together with the emptied arrays.  No
`InsufficientInliers` error (or any error) exists in the function. -/
theorem c3_counterexample :
    @PnP Nat Nat Int [(1, 2, 3)] [(4, 5)] [6] 7 8 (some []) =
      ⟨7, 8, [], [], []⟩ ∧ ([] : List Nat).length < 4 :=
  ⟨rfl, by decide⟩

/-- C3 amended: `PnP` never raises any error and always returns the solver's pose,
however few correspondences survive: when the solver reports no inlier array the
input arrays are returned unfiltered, and when it reports inlier indices (even
zero of them) the three parallel arrays are pruned to exactly those indices,
re-indexed consistently. -/
theorem c3_pnp_total {R T γ : Type} (obj : List (ℚ × ℚ × ℚ)) (img : List (ℚ × ℚ))
    (aux : List γ) (rot : R) (tran : T) (idx : List Nat)
    (hobj : obj.length = img.length) (haux : aux.length = img.length)
    (hidx : ∀ j ∈ idx, j < img.length) :
    PnP obj img aux rot tran none = ⟨rot, tran, img, obj, aux⟩ ∧
    (PnP obj img aux rot tran (some idx)).rot_matrix = rot ∧
    (PnP obj img aux rot tran (some idx)).tran_vector = tran ∧
    (PnP obj img aux rot tran (some idx)).image_point.length = idx.length ∧
    (PnP obj img aux rot tran (some idx)).obj_point.length = idx.length ∧
    (PnP obj img aux rot tran (some idx)).rot_vector.length = idx.length := by
  refine ⟨rfl, rfl, rfl, ?_, ?_, ?_⟩
  · exact selectRows_length img idx hidx
  · exact selectRows_length obj idx (fun j hj => hobj ▸ hidx j hj)
  · exact selectRows_length aux idx (fun j hj => haux ▸ hidx j hj)

/-- C3 witness: the amended statement at a concrete call with one surviving
inlier index. -/
theorem c3_pnp_total_witness :
    @PnP Nat Nat Int [(1, 2, 3)] [(4, 5)] [6] 7 8 none =
      ⟨7, 8, [(4, 5)], [(1, 2, 3)], [6]⟩ ∧
    (@PnP Nat Nat Int [(1, 2, 3)] [(4, 5)] [6] 7 8 (some [0])).rot_matrix = 7 ∧
    (@PnP Nat Nat Int [(1, 2, 3)] [(4, 5)] [6] 7 8 (some [0])).tran_vector = 8 ∧
    (@PnP Nat Nat Int [(1, 2, 3)] [(4, 5)] [6] 7 8 (some [0])).image_point.length =
      ([0] : List Nat).length ∧
    (@PnP Nat Nat Int [(1, 2, 3)] [(4, 5)] [6] 7 8 (some [0])).obj_point.length =
      ([0] : List Nat).length ∧
    (@PnP Nat Nat Int [(1, 2, 3)] [(4, 5)] [6] 7 8 (some [0])).rot_vector.length =
      ([0] : List Nat).length :=
  c3_pnp_total [(1, 2, 3)] [(4, 5)] [6] 7 8 [0] (by decide) (by decide)
    (by decide)

/-- C5 counterexample: the decode-failure message is the constant
`"Error reading images"`; the whole observable result of the failing call is
identical whatever the offending paths are, so the aborted transition does not
identify which image path failed. -/
theorem c5_counterexample :
    (get_matches_load (fun _ => (none : Option Unit)) "./Assets/0000.jpg"
        "./Assets/0001.jpg").2 = some "Error reading images" ∧
    get_matches_load (fun _ => (none : Option Unit)) "./Assets/0000.jpg"
        "./Assets/0001.jpg" =
      get_matches_load (fun _ => (none : Option Unit)) "other1.jpg"
        "other2.jpg" :=
  ⟨rfl, rfl⟩

/-- C5 amended: if either input frame fails to decode, `get_matches` prints the
fixed message `"Error reading images"` — which does not name the offending path —
and returns `None` in place of the 4-tuple of matches, so the caller's tuple
unpacking fails and the pipeline cannot continue past the missing frame. -/
theorem c5_load_failure_aborts {α : Type} (decode : String → Option α)
    (path1 path2 : String) (h : decode path1 = none ∨ decode path2 = none) :
    (get_matches_load decode path1 path2).1 = none ∧
    (get_matches_load decode path1 path2).2 = some readErrorMessage := by
  cases h1 : decode path1 <;> cases h2 : decode path2 <;>
    simp_all [get_matches_load]

/-- C5 witness: the amended statement at a decoder that fails on every path. -/
theorem c5_load_failure_aborts_witness :
    (get_matches_load (fun _ => (none : Option Unit)) "a.jpg" "b.jpg").1 = none ∧
    (get_matches_load (fun _ => (none : Option Unit)) "a.jpg" "b.jpg").2 =
      some readErrorMessage :=
  c5_load_failure_aborts (fun _ => none) "a.jpg" "b.jpg" (Or.inl rfl)

/-- Rotation block of the fixed first transform is the identity matrix. -/
theorem rotOf_transform0 : rotOf transform_matrix_0 = 1 := by
  ext i j
  simp [rotOf, transform_matrix_0, Matrix.one_apply, Fin.ext_iff]

/-- Translation column of the fixed first transform is zero. -/
theorem tranOf_transform0 : tranOf transform_matrix_0 = 0 := by
  funext i
  have hlt : (i : ℕ) < 3 := i.isLt
  simp only [tranOf, transform_matrix_0]
  have h3 : (((3 : Fin 4) : ℕ)) = 3 := rfl
  rw [if_neg (by rw [h3]; omega)]
  rfl

/-- C6: with the first camera's transform fixed to the identity
(`transform_matrix_0 = [I|0]`), two-view initialisation outputs
`transform_matrix_1 = [R|t]` — exactly the rotation and translation recovered
from the essential matrix — and `pose_1 = K · [R|t]`; the correspondence and
colour arrays are filtered first by the essential-matrix RANSAC inlier mask and
then by the pose-recovery inlier mask, and all four arrays have equal length
after both filters. -/
theorem c6_two_view_init (K R : Mat3 ℚ) (t : Vec3 ℚ) (emMask rpMask : List Bool)
    (f0 f1 : List (ℚ × ℚ)) (ca cb : List (ℚ × ℚ × ℚ))
    (h01 : f0.length = f1.length) (h0a : f0.length = ca.length)
    (h0b : f0.length = cb.length) :
    (twoViewInit K R t emMask rpMask f0 f1 ca cb).transform_matrix_1 =
      transformOfRt R t ∧
    (twoViewInit K R t emMask rpMask f0 f1 ca cb).pose_1 =
      K * transformOfRt R t ∧
    (twoViewInit K R t emMask rpMask f0 f1 ca cb).feature_0 =
      maskFilter rpMask (maskFilter emMask f0) ∧
    (twoViewInit K R t emMask rpMask f0 f1 ca cb).feature_1 =
      maskFilter rpMask (maskFilter emMask f1) ∧
    (twoViewInit K R t emMask rpMask f0 f1 ca cb).color_a =
      maskFilter rpMask (maskFilter emMask ca) ∧
    (twoViewInit K R t emMask rpMask f0 f1 ca cb).color_b =
      maskFilter rpMask (maskFilter emMask cb) ∧
    (twoViewInit K R t emMask rpMask f0 f1 ca cb).feature_0.length =
      (twoViewInit K R t emMask rpMask f0 f1 ca cb).feature_1.length ∧
    (twoViewInit K R t emMask rpMask f0 f1 ca cb).feature_0.length =
      (twoViewInit K R t emMask rpMask f0 f1 ca cb).color_a.length ∧
    (twoViewInit K R t emMask rpMask f0 f1 ca cb).feature_0.length =
      (twoViewInit K R t emMask rpMask f0 f1 ca cb).color_b.length := by
  have hT : (twoViewInit K R t emMask rpMask f0 f1 ca cb).transform_matrix_1 =
      transformOfRt R t := by
    show transformOfRt (R * rotOf transform_matrix_0)
        (tranOf transform_matrix_0 + (rotOf transform_matrix_0).mulVec t) =
      transformOfRt R t
    rw [rotOf_transform0, tranOf_transform0, mul_one, Matrix.one_mulVec, zero_add]
  refine ⟨hT, ?_, rfl, rfl, rfl, rfl, ?_, ?_, ?_⟩
  · show K * transformOfRt (R * rotOf transform_matrix_0)
        (tranOf transform_matrix_0 + (rotOf transform_matrix_0).mulVec t) =
      K * transformOfRt R t
    rw [rotOf_transform0, tranOf_transform0, mul_one, Matrix.one_mulVec, zero_add]
  · exact maskFilter_length_eq rpMask _ _ (maskFilter_length_eq emMask f0 f1 h01)
  · exact maskFilter_length_eq rpMask _ _ (maskFilter_length_eq emMask f0 ca h0a)
  · exact maskFilter_length_eq rpMask _ _ (maskFilter_length_eq emMask f0 cb h0b)

/-- C6 witness: the initialisation applied to a concrete two-view problem. -/
theorem c6_two_view_init_witness :
    (twoViewInit 1 1 0 [true, false] [true] [(1, 2), (3, 4)] [(5, 6), (7, 8)]
        [(1, 1, 1), (2, 2, 2)] [(3, 3, 3), (4, 4, 4)]).transform_matrix_1 =
      transformOfRt 1 0 ∧
    (twoViewInit 1 1 0 [true, false] [true] [(1, 2), (3, 4)] [(5, 6), (7, 8)]
        [(1, 1, 1), (2, 2, 2)] [(3, 3, 3), (4, 4, 4)]).pose_1 =
      (1 : Mat3 ℚ) * transformOfRt 1 0 ∧
    (twoViewInit 1 1 0 [true, false] [true] [(1, 2), (3, 4)] [(5, 6), (7, 8)]
        [(1, 1, 1), (2, 2, 2)] [(3, 3, 3), (4, 4, 4)]).feature_0 =
      maskFilter [true] (maskFilter [true, false] [(1, 2), (3, 4)]) ∧
    (twoViewInit 1 1 0 [true, false] [true] [(1, 2), (3, 4)] [(5, 6), (7, 8)]
        [(1, 1, 1), (2, 2, 2)] [(3, 3, 3), (4, 4, 4)]).feature_1 =
      maskFilter [true] (maskFilter [true, false] [(5, 6), (7, 8)]) ∧
    (twoViewInit 1 1 0 [true, false] [true] [(1, 2), (3, 4)] [(5, 6), (7, 8)]
        [(1, 1, 1), (2, 2, 2)] [(3, 3, 3), (4, 4, 4)]).color_a =
      maskFilter [true] (maskFilter [true, false] [(1, 1, 1), (2, 2, 2)]) ∧
    (twoViewInit 1 1 0 [true, false] [true] [(1, 2), (3, 4)] [(5, 6), (7, 8)]
        [(1, 1, 1), (2, 2, 2)] [(3, 3, 3), (4, 4, 4)]).color_b =
      maskFilter [true] (maskFilter [true, false] [(3, 3, 3), (4, 4, 4)]) ∧
    (twoViewInit 1 1 0 [true, false] [true] [(1, 2), (3, 4)] [(5, 6), (7, 8)]
        [(1, 1, 1), (2, 2, 2)] [(3, 3, 3), (4, 4, 4)]).feature_0.length =
      (twoViewInit 1 1 0 [true, false] [true] [(1, 2), (3, 4)] [(5, 6), (7, 8)]
        [(1, 1, 1), (2, 2, 2)] [(3, 3, 3), (4, 4, 4)]).feature_1.length ∧
    (twoViewInit 1 1 0 [true, false] [true] [(1, 2), (3, 4)] [(5, 6), (7, 8)]
        [(1, 1, 1), (2, 2, 2)] [(3, 3, 3), (4, 4, 4)]).feature_0.length =
      (twoViewInit 1 1 0 [true, false] [true] [(1, 2), (3, 4)] [(5, 6), (7, 8)]
        [(1, 1, 1), (2, 2, 2)] [(3, 3, 3), (4, 4, 4)]).color_a.length ∧
    (twoViewInit 1 1 0 [true, false] [true] [(1, 2), (3, 4)] [(5, 6), (7, 8)]
        [(1, 1, 1), (2, 2, 2)] [(3, 3, 3), (4, 4, 4)]).feature_0.length =
      (twoViewInit 1 1 0 [true, false] [true] [(1, 2), (3, 4)] [(5, 6), (7, 8)]
        [(1, 1, 1), (2, 2, 2)] [(3, 3, 3), (4, 4, 4)]).color_b.length :=
  c6_two_view_init 1 1 0 [true, false] [true] [(1, 2), (3, 4)] [(5, 6), (7, 8)]
    [(1, 1, 1), (2, 2, 2)] [(3, 3, 3), (4, 4, 4)] (by decide) (by decide)
    (by decide)

/-- Rotation block of a reassembled transform. -/
theorem rotOf_transformOfRt {α : Type} (R : Mat3 α) (t : Vec3 α) :
    rotOf (transformOfRt R t) = R := by
  ext i j
  have hj : ((Fin.castLE (by omega) j : Fin 4) : ℕ) < 3 := j.isLt
  simp only [rotOf, transformOfRt, hj, dif_pos]
  exact congrArg (R i) (Fin.ext rfl)

/-- Translation column of a reassembled transform. -/
theorem tranOf_transformOfRt {α : Type} (R : Mat3 α) (t : Vec3 α) :
    tranOf (transformOfRt R t) = t := by
  funext i
  have h3 : ¬(((3 : Fin 4) : ℕ) < 3) := by decide
  simp only [tranOf, transformOfRt, h3, dif_neg, not_false_iff]

/-- Projection with identity intrinsics and identity pose is plain
dehomogenisation. -/
theorem projectPoint_id (X : Vec3 ℝ) :
    projectPoint 1 1 0 X = (X 0 / X 2, X 1 / X 2) := by
  simp [projectPoint, Matrix.one_mulVec]

/-- Fancy indexing by `np.where(dist < bound)` indices is list filtering when the
distance list is computed pointwise from the selected list. -/
theorem selectRows_whereLT_map {β : Type} (l : List β) (g : β → ℝ) (bound : ℝ) :
    selectRows l (whereLT (l.map g) bound) =
      l.filter (fun v => decide (g v < bound)) := by
  induction l with
  | nil => rfl
  | cons v rest ih =>
    have hps : ((fun k => decide ((g v :: List.map g rest).getD k 0 < bound)) ∘
        Nat.succ) = (fun k => decide ((List.map g rest).getD k 0 < bound)) := rfl
    have hgs : ((fun k => (v :: rest).get? k) ∘ Nat.succ) =
        (fun k => rest.get? k) := rfl
    unfold whereLT selectRows at ih ⊢
    rw [List.map_cons, List.length_cons, List.range_succ_eq_map, List.filter_cons,
      List.filter_map, hps, List.filter_cons]
    simp only [List.getD_cons_zero]
    split
    · rw [List.filterMap_cons_some (show (fun k => (v :: rest).get? k) 0 = some v
        from rfl), List.filterMap_map, hgs, ih]
    · rw [List.filterMap_map, hgs, ih]

/-- The vertex pipeline of `to_ply` equals a plain filter of the stacked vertex
rows by the strict distance test. -/
theorem to_ply_verts_eq_filter (pc : List (ℝ × ℝ × ℝ))
    (cols : List (Nat × Nat × Nat)) :
    to_ply_verts pc cols =
      (plyStackedVerts pc cols).filter (fun v =>
        decide (distFrom (centroid ((plyStackedVerts pc cols).map (·.1))) v.1 <
          plyDistThreshold (plyStackedVerts pc cols))) := by
  simp only [to_ply_verts, plyStackedVerts, plyDistThreshold, List.map_map,
    Function.comp]
  exact selectRows_whereLT_map _ _ _

/-- Componentwise evaluation of the test-vector constructor. -/
theorem vec3R_zero (a b c : ℝ) : vec3R a b c 0 = a := rfl

/-- Componentwise evaluation of the test-vector constructor. -/
theorem vec3R_one (a b c : ℝ) : vec3R a b c 1 = b := rfl

/-- Componentwise evaluation of the test-vector constructor. -/
theorem vec3R_two (a b c : ℝ) : vec3R a b c 2 = c := rfl

/-- C4 counterexample: with identity intrinsics, the identity pose, object points
`(3,4,1)` and `(4,3,1)` both observed at `(0,0)`, the per-point Euclidean
distances are 5 and 5, so the claimed mean distance is 5 — but the evaluator
returns `sqrt(50)/2 ≈ 3.54`: it is not the mean of the per-point L2 distances. -/
theorem c4_counterexample :
    reprojection_error [vec3R 3 4 1, vec3R 4 3 1] [(0, 0), (0, 0)]
        (transformOfRt 1 0) 1 ≠
      (euclidDist (3, 4) (0, 0) + euclidDist (4, 3) (0, 0)) / 2 := by
  have h5a : euclidDist (3, 4) (0, 0) = 5 := by
    simp only [euclidDist]
    norm_num
    rw [show (25 : ℝ) = 5 ^ 2 by norm_num]
    exact Real.sqrt_sq (by norm_num)
  have h5b : euclidDist (4, 3) (0, 0) = 5 := by
    simp only [euclidDist]
    norm_num
    rw [show (25 : ℝ) = 5 ^ 2 by norm_num]
    exact Real.sqrt_sq (by norm_num)
  have hImgs : ([vec3R 3 4 1, vec3R 4 3 1].map
      (projectPoint 1 (rotOf (transformOfRt 1 0)) (tranOf (transformOfRt 1 0)))) =
      [((3 : ℝ), (4 : ℝ)), ((4 : ℝ), (3 : ℝ))] := by
    rw [rotOf_transformOfRt, tranOf_transformOfRt]
    simp only [List.map_cons, List.map_nil, projectPoint_id, vec3R_zero,
      vec3R_one, vec3R_two]
    norm_num
  have hL : reprojection_error [vec3R 3 4 1, vec3R 4 3 1] [(0, 0), (0, 0)]
      (transformOfRt 1 0) 1 = Real.sqrt 50 / 2 := by
    simp only [reprojection_error]
    rw [hImgs]
    simp only [cvNormL2, List.zip_cons_cons, List.zip_nil_left, List.map_cons,
      List.map_nil, List.sum_cons, List.sum_nil, List.length_cons,
      List.length_nil]
    norm_num
  rw [hL, h5a, h5b]
  norm_num
  intro hEq
  have h2 := Real.sq_sqrt (show (0 : ℝ) ≤ 50 by norm_num)
  rw [show Real.sqrt 50 = 10 by linarith] at h2
  norm_num at h2

/-- C4 amended: the reprojection evaluator projects each 3D point through `[R|t]`
then `K` and compares with the observed points, but what it returns is the global
L2 norm of the stacked residuals — the square root of the SUM of the squared
per-point Euclidean distances — divided by the number of points; this equals the
mean per-point distance only in special cases (a single point, or at most one
nonzero residual). -/
theorem c4_global_norm (obj : List (Vec3 ℝ)) (img : List (ℝ × ℝ))
    (T : Mat34 ℝ) (K : Mat3 ℝ) :
    reprojection_error obj img T K =
      Real.sqrt ((((obj.map (projectPoint K (rotOf T) (tranOf T))).zip img).map
        (fun pq => euclidDist pq.1 pq.2 ^ 2)).sum) / obj.length := by
  have hmap : (fun pq : (ℝ × ℝ) × (ℝ × ℝ) => euclidDist pq.1 pq.2 ^ 2) =
      (fun pq => (pq.1.1 - pq.2.1) ^ 2 + (pq.1.2 - pq.2.2) ^ 2) := by
    funext pq
    simp only [euclidDist]
    exact Real.sq_sqrt (by positivity)
  simp only [reprojection_error, cvNormL2, hmap, List.length_map]

/-- C7 counterexample: on the concrete cloud `cexPC` the third scaled point
`(1350, 0, 0)` lies at distance 900 from the centroid, exactly equal to
`mean(dist) + 300 = 900` — it does not exceed the threshold, so by the claim it
should be retained — yet the exporter discards it, because the kept test is the
strict `dist < mean(dist) + 300`. -/
theorem c7_counterexample :
    distFrom (centroid ((plyStackedVerts cexPC cexCols).map (·.1)))
        ((1350 : ℝ), (0 : ℝ), (0 : ℝ)) =
      plyDistThreshold (plyStackedVerts cexPC cexCols) ∧
    (((1350 : ℝ), (0 : ℝ), (0 : ℝ)), ((255 : Nat), 255, 255)) ∈
      plyStackedVerts cexPC cexCols ∧
    (((1350 : ℝ), (0 : ℝ), (0 : ℝ)), ((255 : Nat), 255, 255)) ∉
      to_ply_verts cexPC cexCols := by
  have hstack : plyStackedVerts cexPC cexCols =
      [(((0 : ℝ), (0 : ℝ), (0 : ℝ)), ((255 : Nat), 255, 255)),
       (((0 : ℝ), (0 : ℝ), (0 : ℝ)), ((255 : Nat), 255, 255)),
       (((1350 : ℝ), (0 : ℝ), (0 : ℝ)), ((255 : Nat), 255, 255))] := by
    norm_num [plyStackedVerts, cexPC, cexCols, scalePoint, exportColorTriple,
      exportColorByte]
  have hvpts : (plyStackedVerts cexPC cexCols).map (·.1) =
      [((0 : ℝ), (0 : ℝ), (0 : ℝ)), ((0 : ℝ), (0 : ℝ), (0 : ℝ)),
       ((1350 : ℝ), (0 : ℝ), (0 : ℝ))] := by
    rw [hstack]
    rfl
  have hcent : centroid [((0 : ℝ), (0 : ℝ), (0 : ℝ)), ((0 : ℝ), (0 : ℝ), (0 : ℝ)),
      ((1350 : ℝ), (0 : ℝ), (0 : ℝ))] = ((450 : ℝ), (0 : ℝ), (0 : ℝ)) := by
    simp only [centroid, List.map_cons, List.map_nil, List.sum_cons, List.sum_nil,
      List.length_cons, List.length_nil]
    norm_num
  have hd0 : distFrom ((450 : ℝ), (0 : ℝ), (0 : ℝ)) ((0 : ℝ), (0 : ℝ), (0 : ℝ)) =
      450 := by
    simp only [distFrom]
    norm_num
    rw [show (202500 : ℝ) = 450 ^ 2 by norm_num]
    exact Real.sqrt_sq (by norm_num)
  have hd2 : distFrom ((450 : ℝ), (0 : ℝ), (0 : ℝ)) ((1350 : ℝ), (0 : ℝ), (0 : ℝ)) =
      900 := by
    simp only [distFrom]
    norm_num
    rw [show (810000 : ℝ) = 900 ^ 2 by norm_num]
    exact Real.sqrt_sq (by norm_num)
  have hdist : ([((0 : ℝ), (0 : ℝ), (0 : ℝ)), ((0 : ℝ), (0 : ℝ), (0 : ℝ)),
      ((1350 : ℝ), (0 : ℝ), (0 : ℝ))]).map
        (distFrom ((450 : ℝ), (0 : ℝ), (0 : ℝ))) = [450, 450, 900] := by
    simp only [List.map_cons, List.map_nil, hd0, hd2]
  have hthr : plyDistThreshold (plyStackedVerts cexPC cexCols) = 900 := by
    simp only [plyDistThreshold]
    rw [hvpts, hcent, hdist]
    simp only [List.sum_cons, List.sum_nil, List.length_cons, List.length_nil]
    norm_num
  have hout : to_ply_verts cexPC cexCols =
      [(((0 : ℝ), (0 : ℝ), (0 : ℝ)), ((255 : Nat), 255, 255)),
       (((0 : ℝ), (0 : ℝ), (0 : ℝ)), ((255 : Nat), 255, 255))] := by
    rw [to_ply_verts_eq_filter, hvpts, hcent, hthr, hstack]
    have e0 : decide (distFrom ((450 : ℝ), (0 : ℝ), (0 : ℝ))
        ((0 : ℝ), (0 : ℝ), (0 : ℝ)) < 900) = true :=
      decide_eq_true (by rw [hd0]; norm_num)
    have e2 : decide (distFrom ((450 : ℝ), (0 : ℝ), (0 : ℝ))
        ((1350 : ℝ), (0 : ℝ), (0 : ℝ)) < 900) = false :=
      decide_eq_false (by rw [hd2]; norm_num)
    simp only [List.filter_cons, List.filter_nil, e0, e2, eq_self_iff_true,
      if_true, Bool.false_eq_true, if_false]
  refine ⟨?_, ?_, ?_⟩
  · rw [hvpts, hcent, hd2, hthr]
  · rw [hstack]
    simp
  · rw [hout]
    norm_num [Prod.ext_iff]

/-- C7 amended: in the exporter a point is retained exactly when its Euclidean
distance from the centroid of the accumulated scaled points is strictly less than
`mean(dist) + 300`, and discarded when the distance is greater than OR EQUAL to
that threshold (the claim's "discarded exactly when it exceeds" misses the
boundary, where the code also discards): the output is precisely the filter of
the stacked vertex rows by the strict test, every stacked row strictly under the
threshold is retained, and every row at or above it is discarded. -/
theorem c7_filter (pc : List (ℝ × ℝ × ℝ)) (cols : List (Nat × Nat × Nat)) :
    to_ply_verts pc cols =
      (plyStackedVerts pc cols).filter (fun v =>
        decide (distFrom (centroid ((plyStackedVerts pc cols).map (·.1))) v.1 <
          plyDistThreshold (plyStackedVerts pc cols))) ∧
    (∀ v ∈ plyStackedVerts pc cols,
      distFrom (centroid ((plyStackedVerts pc cols).map (·.1))) v.1 <
          plyDistThreshold (plyStackedVerts pc cols) →
        v ∈ to_ply_verts pc cols) ∧
    (∀ v : PlyVert, plyDistThreshold (plyStackedVerts pc cols) ≤
        distFrom (centroid ((plyStackedVerts pc cols).map (·.1))) v.1 →
      v ∉ to_ply_verts pc cols) := by
  refine ⟨to_ply_verts_eq_filter pc cols, ?_, ?_⟩
  · intro v hv hlt
    rw [to_ply_verts_eq_filter]
    exact List.mem_filter.mpr ⟨hv, decide_eq_true hlt⟩
  · intro v hge hmem
    rw [to_ply_verts_eq_filter] at hmem
    have hlt := (List.mem_filter.mp hmem).2
    rw [decide_eq_true_eq] at hlt
    linarith

/-- C7 witness: on the one-point cloud at the origin, the origin vertex is
strictly inside the threshold and is retained in the export. -/
theorem c7_filter_witness :
    (((0 : ℝ), (0 : ℝ), (0 : ℝ)), ((0 : Nat), 0, 0)) ∈
      to_ply_verts [((0 : ℝ), (0 : ℝ), (0 : ℝ))] [((0 : Nat), 0, 0)] :=
  (c7_filter [((0 : ℝ), (0 : ℝ), (0 : ℝ))] [((0 : Nat), 0, 0)]).2.1
    (((0 : ℝ), (0 : ℝ), (0 : ℝ)), ((0 : Nat), 0, 0))
    (by norm_num [plyStackedVerts, scalePoint, exportColorTriple, exportColorByte])
    (by norm_num [plyStackedVerts, plyDistThreshold, scalePoint, exportColorTriple,
      exportColorByte, centroid, distFrom, Real.sqrt_zero])

/-- Specification of `firstMatchIdx`: a returned index points at a broadcast-hit
row, and every earlier row misses. -/
theorem firstMatchIdx_spec (pts2 : List Pt2) (p : Pt2) (j : Nat)
    (h : firstMatchIdx pts2 p = some j) :
    ∃ q, pts2.get? j = some q ∧ rowMatches q p = true ∧
      ∀ j' q', j' < j → pts2.get? j' = some q' → rowMatches q' p = false := by
  induction pts2 generalizing j with
  | nil => simp [firstMatchIdx] at h
  | cons a rest ih =>
    by_cases ha : rowMatches a p = true
    · rw [firstMatchIdx, if_pos ha] at h
      obtain rfl : 0 = j := by simpa using h
      exact ⟨a, rfl, ha, fun j' q' hj' _ => absurd hj' (Nat.not_lt_zero j')⟩
    · rw [firstMatchIdx, if_neg ha] at h
      cases hr : firstMatchIdx rest p with
      | none => rw [hr] at h; simp at h
      | some j0 =>
        rw [hr] at h
        obtain rfl : j0 + 1 = j := by simpa using h
        obtain ⟨q, hq, hm, hmin⟩ := ih j0 hr
        refine ⟨q, by simpa using hq, hm, ?_⟩
        intro j' q' hj' hg
        cases j' with
        | zero =>
          obtain rfl : a = q' := by simpa using hg
          simpa using ha
        | succ j'' =>
          exact hmin j'' q' (by omega) (by simpa using hg)

/-- A first-match index exists exactly when some row of the second set produces a
broadcast hit against `p`. -/
theorem firstMatchIdx_some_iff (pts2 : List Pt2) (p : Pt2) :
    (∃ j, firstMatchIdx pts2 p = some j) ↔ ∃ q ∈ pts2, rowMatches q p = true := by
  induction pts2 with
  | nil => simp [firstMatchIdx]
  | cons a rest ih =>
    by_cases ha : rowMatches a p = true
    · simp only [firstMatchIdx, if_pos ha]
      exact ⟨fun _ => ⟨a, List.mem_cons_self a rest, ha⟩, fun _ => ⟨0, rfl⟩⟩
    · simp only [firstMatchIdx, if_neg ha]
      constructor
      · rintro ⟨j, hj⟩
        cases hr : firstMatchIdx rest p with
        | none => rw [hr] at hj; simp at hj
        | some j0 =>
          obtain ⟨q, hq, hm⟩ := ih.mp ⟨j0, hr⟩
          exact ⟨q, List.mem_cons_of_mem a hq, hm⟩
      · rintro ⟨q, hq, hm⟩
        rcases List.mem_cons.mp hq with rfl | hq'
        · exact absurd hm ha
        · obtain ⟨j, hj⟩ := ih.mpr ⟨q, hq', hm⟩
          exact ⟨j + 1, by rw [hj]; rfl⟩

/-- Membership in the first index list produced by the collection loop. -/
theorem cmPairs_fst_mem (pts2 l : List Pt2) (i0 i : Nat) :
    i ∈ (cmPairs pts2 l i0).map (·.1) ↔
      ∃ k p, i = i0 + k ∧ l.get? k = some p ∧
        ∃ q ∈ pts2, rowMatches q p = true := by
  induction l generalizing i0 with
  | nil => simp [cmPairs]
  | cons p rest ih =>
    cases hf : firstMatchIdx pts2 p with
    | some j =>
      simp only [cmPairs, hf, List.map_cons, List.mem_cons]
      constructor
      · rintro (rfl | hmem)
        · exact ⟨0, p, by omega, rfl, (firstMatchIdx_some_iff pts2 p).mp ⟨j, hf⟩⟩
        · obtain ⟨k, p', hik, hget, hq⟩ := (ih (i0 + 1)).mp hmem
          exact ⟨k + 1, p', by omega, by simpa using hget, hq⟩
      · rintro ⟨k, p', hik, hget, hq⟩
        cases k with
        | zero =>
          left
          omega
        | succ k' =>
          right
          exact (ih (i0 + 1)).mpr ⟨k', p', by omega, by simpa using hget, hq⟩
    | none =>
      simp only [cmPairs, hf]
      rw [ih (i0 + 1)]
      constructor
      · rintro ⟨k, p', hik, hget, hq⟩
        exact ⟨k + 1, p', by omega, by simpa using hget, hq⟩
      · rintro ⟨k, p', hik, hget, hq⟩
        cases k with
        | zero =>
          obtain rfl : p = p' := by simpa using hget
          obtain ⟨j, hj⟩ := (firstMatchIdx_some_iff pts2 p).mpr hq
          rw [hf] at hj
          exact absurd hj (by simp)
        | succ k' =>
          exact ⟨k', p', by omega, by simpa using hget, hq⟩

/-- Every collected index pair points at a first-set row and at the first
matching second-set row. -/
theorem cmPairs_mem_spec (pts2 l : List Pt2) (i0 i j : Nat)
    (h : (i, j) ∈ cmPairs pts2 l i0) :
    i0 ≤ i ∧ ∃ p, l.get? (i - i0) = some p ∧ firstMatchIdx pts2 p = some j := by
  induction l generalizing i0 with
  | nil => simp [cmPairs] at h
  | cons p rest ih =>
    cases hf : firstMatchIdx pts2 p with
    | some j0 =>
      simp only [cmPairs, hf, List.mem_cons] at h
      rcases h with heq | hmem
      · obtain ⟨rfl, rfl⟩ : i = i0 ∧ j = j0 := by simpa [Prod.ext_iff] using heq
        exact ⟨Nat.le_refl _, p, by simp, hf⟩
      · obtain ⟨hle, p', hget, hj⟩ := ih (i0 + 1) hmem
        refine ⟨by omega, p', ?_, hj⟩
        have hsub : i - i0 = (i - (i0 + 1)) + 1 := by omega
        rw [hsub]
        simpa using hget
    | none =>
      simp only [cmPairs, hf] at h
      obtain ⟨hle, p', hget, hj⟩ := ih (i0 + 1) h
      refine ⟨by omega, p', ?_, hj⟩
      have hsub : i - i0 = (i - (i0 + 1)) + 1 := by omega
      rw [hsub]
      simpa using hget

/-- Membership in the masked-removal output: exactly the rows whose index is not
masked. -/
theorem removeRows_mem (l : List Pt2) (idx : List Nat) (x : Pt2) :
    x ∈ removeRows l idx ↔ ∃ k, l.get? k = some x ∧ k ∉ idx := by
  unfold removeRows
  simp only [List.mem_map, List.mem_filter]
  constructor
  · rintro ⟨⟨k, y⟩, ⟨hmem, hk⟩, heq⟩
    obtain rfl : y = x := heq
    refine ⟨k, ?_, ?_⟩
    · rw [List.get?_eq_getElem?]
      exact List.mem_enum_iff_getElem?.mp hmem
    · simpa using hk
  · rintro ⟨k, hget, hnot⟩
    refine ⟨(k, x), ⟨?_, ?_⟩, rfl⟩
    · exact List.mem_enum_iff_getElem?.mpr (by rw [← List.get?_eq_getElem?]; exact hget)
    · simpa using hnot

/-- C1 counterexample: the first-set "to" point `(1,2)` and the second-set "from"
point `(1,7)` are unequal (they share only their first coordinate), yet the
tracker reports index 0 in both sets: the numpy broadcast comparison
`image_points_2 == image_points_1[i, :]` fires on a single shared component, not
only on exact point equality as the claim states. -/
theorem c1_counterexample :
    rowEqual ((1 : Int), (7 : Int)) ((1 : Int), (2 : Int)) = false ∧
    common_points [((1 : Int), (2 : Int))] [((1 : Int), (7 : Int))]
        [((5 : Int), (5 : Int))] = ([0], [0], [], []) := by
  exact ⟨rfl, rfl⟩

/-- C1 amended: the two returned index lists contain exactly the indices `i`
(into the first set) and `j` (into the second set) such that the "to" coordinate
of the first set at `i` shares AT LEAST ONE component (x or y) with the "from"
coordinate of the second set at `j` — numpy's broadcast `==` — with `j` the first
such row (duplicates resolve to the first occurrence); whole-point equality is
only the special case where both components agree.  The two complementary output
arrays hold exactly the rows of the second and third sets whose index was not
matched; on the spec's example (common track `(2,2)`/`(3,3)` plus the disjoint
pair `(9,9)→(8,8)`) the tracker reports index 0 in both sets and excludes
`(2,2)`/`(3,3)` from the non-common outputs, as claimed. -/
theorem c1_tracker (pts1 pts2 pts3 : List Pt2) :
    (∀ i : Nat, i ∈ (common_points pts1 pts2 pts3).1 ↔
      ∃ p, pts1.get? i = some p ∧ ∃ q ∈ pts2, rowMatches q p = true) ∧
    (∀ k i j : Nat, (common_points pts1 pts2 pts3).1.get? k = some i →
      (common_points pts1 pts2 pts3).2.1.get? k = some j →
      ∃ p q, pts1.get? i = some p ∧ pts2.get? j = some q ∧
        rowMatches q p = true ∧
        ∀ j' q', j' < j → pts2.get? j' = some q' → rowMatches q' p = false) ∧
    (∀ x, x ∈ (common_points pts1 pts2 pts3).2.2.1 ↔
      ∃ k, pts2.get? k = some x ∧ k ∉ (common_points pts1 pts2 pts3).2.1) ∧
    (∀ x, x ∈ (common_points pts1 pts2 pts3).2.2.2 ↔
      ∃ k, pts3.get? k = some x ∧ k ∉ (common_points pts1 pts2 pts3).2.1) ∧
    common_points [((2 : Int), (2 : Int))]
        [((2 : Int), (2 : Int)), ((9 : Int), (9 : Int))]
        [((3 : Int), (3 : Int)), ((8 : Int), (8 : Int))] =
      ([0], [0], [((9 : Int), (9 : Int))], [((8 : Int), (8 : Int))]) := by
  refine ⟨?_, ?_, ?_, ?_, by decide⟩
  · intro i
    simp only [common_points]
    rw [cmPairs_fst_mem]
    constructor
    · rintro ⟨k, p, hik, hget, hq⟩
      obtain rfl : i = k := by omega
      exact ⟨p, hget, hq⟩
    · rintro ⟨p, hget, hq⟩
      exact ⟨i, p, by omega, hget, hq⟩
  · intro k i j h1 h2
    simp only [common_points] at h1 h2
    rw [List.get?_map] at h1 h2
    cases hp : (cmPairs pts2 pts1 0).get? k with
    | none =>
      rw [hp] at h1
      simp at h1
    | some pr =>
      rw [hp] at h1 h2
      obtain rfl : pr.1 = i := by simpa using h1
      obtain rfl : pr.2 = j := by simpa using h2
      have hmem : pr ∈ cmPairs pts2 pts1 0 := List.get?_mem hp
      obtain ⟨hle, p, hget, hfj⟩ :=
        cmPairs_mem_spec pts2 pts1 0 pr.1 pr.2 hmem
      obtain ⟨q, hq, hm, hmin⟩ := firstMatchIdx_spec pts2 p pr.2 hfj
      exact ⟨p, q, by simpa using hget, hq, hm, hmin⟩
  · intro x
    simp only [common_points]
    exact removeRows_mem pts2 _ x
  · intro x
    simp only [common_points]
    exact removeRows_mem pts3 _ x

/-- C1 witness: the pairing part of the amended statement evaluated on the spec's
tracking example, where the common track is reported at index 0 of both sets. -/
theorem c1_tracker_witness :
    ∃ p q : Pt2, ([((2 : Int), (2 : Int))]).get? 0 = some p ∧
      ([((2 : Int), (2 : Int)), ((9 : Int), (9 : Int))]).get? 0 = some q ∧
      rowMatches q p = true ∧
      ∀ j' q', j' < 0 →
        ([((2 : Int), (2 : Int)), ((9 : Int), (9 : Int))]).get? j' = some q' →
        rowMatches q' p = false :=
  (c1_tracker [((2 : Int), (2 : Int))]
      [((2 : Int), (2 : Int)), ((9 : Int), (9 : Int))]
      [((3 : Int), (3 : Int)), ((8 : Int), (8 : Int))]).2.1 0 0 0
    (by decide) (by decide)
